import Mathlib

set_option maxHeartbeats 1000000

/-
  Shallow embedding of the dayblazer-calendar core (calendar manager and the
  CalendarDay / CalendarEvent classes).

  JS `Date` values are modelled by their (year, month, day) components, with
  `month` 0-based as in JS.  JS numbers appearing in the date math are
  modelled as `Int`; the XP counters, which only ever grow by non-negative
  literals, as `Nat`.  Fallible DOM indexing is modelled with `Option`.
-/

structure JSDate where
  year : Int
  month : Int
  day : Int
deriving DecidableEq

/-- Gregorian leap-year rule, as applied by the JS `Date` object. -/
def isLeapYear (y : Int) : Bool :=
  y.emod 4 == 0 && (y.emod 100 != 0 || y.emod 400 == 0)

/-- Number of days of month `m` (0-based) of year `y`. -/
def monthLength (y m : Int) : Int :=
  if m == 1 then (if isLeapYear y then 29 else 28)
  else if m == 3 || m == 5 || m == 8 || m == 10 then 30
  else 31

/-- Normalize a (year, month) pair so that the month lands in 0..11, as the
JS `MakeDay` operation does when a month argument is out of range. -/
def normMonth (y m : Int) : Int × Int :=
  (y + m.fdiv 12, m.emod 12)

/-- Day-of-month overflow handling of JS `MakeDay`: a day past the end of the
month rolls into the following month.  For the day values 1..31 that a real
clock date can carry, at most one month of rollover can happen. -/
def dayRoll (y m d : Int) : JSDate :=
  let len := monthLength y m
  if len < d then
    let p := normMonth y (m + 1)
    ⟨p.1, p.2, d - len⟩
  else ⟨y, m, d⟩

/-- JS `date.setMonth(m)`: keeps the day-of-month, replaces the month, and
renormalizes both the month and the day. -/
def jsSetMonth (t : JSDate) (m : Int) : JSDate :=
  let p := normMonth t.year m
  dayRoll p.1 p.2 t.day

/-- Embeds `getDaysInMonth(date)`, i.e. `new Date(y, m + 1, 0).getDate()`:
day 0 of the following month is the last day of the month of `date`. -/
def getDaysInMonth (date : JSDate) : Int :=
  monthLength date.year date.month

/-- Day count since 1970-01-01 of the civil date (y, m, d) with `m` 1-based
(the standard era-based conversion used by calendar implementations). -/
def civilDays (y m d : Int) : Int :=
  let yy := if m ≤ 2 then y - 1 else y
  let era : Int := yy.fdiv 400
  let yoe : Int := yy - era * 400
  let mp : Int := (m + 9).emod 12
  let doy : Int := (153 * mp + 2).fdiv 5 + d - 1
  let doe : Int := yoe * 365 + yoe.fdiv 4 - yoe.fdiv 100 + doy
  era * 146097 + doe - 719468

/-- JS `getDay()` numbering of the weekday of (y, m0, d), `m0` 0-based:
0 = Sunday .. 6 = Saturday (1970-01-01 is a Thursday, day number 4). -/
def jsWeekday (y m0 d : Int) : Int :=
  (civilDays y (m0 + 1) d + 4).emod 7

/-- The leading three-letter weekday token of `Date.prototype.toString`,
which `getFirstWeekDayInMonth` obtains via `toString().split(" ")[0]`. -/
def shortWeekdayName (w : Int) : String :=
  if w == 0 then "Sun"
  else if w == 1 then "Mon"
  else if w == 2 then "Tue"
  else if w == 3 then "Wed"
  else if w == 4 then "Thu"
  else if w == 5 then "Fri"
  else "Sat"

/-- Result object of `getFirstWeekDayInMonth`.  JS object properties that a
branch does not assign are `undefined`, modelled as `none`.  The source's
success cases assign the property `weekday`; its default case assigns the
differently spelled property `weekDay` (capital D). -/
structure WeekdayResult where
  weekday : Option String
  weekDay : Option String
  index : Nat
deriving DecidableEq

/-- The `switch` statement of `getFirstWeekDayInMonth`, keyed on the leading
token of the first-of-month date's string rendering. -/
def weekdaySwitch (tok : String) : WeekdayResult :=
  if tok == "Mon" then ⟨some "Monday", none, 0⟩
  else if tok == "Tue" then ⟨some "Tuesday", none, 1⟩
  else if tok == "Wed" then ⟨some "Wednesday", none, 2⟩
  else if tok == "Thu" then ⟨some "Thursday", none, 3⟩
  else if tok == "Fri" then ⟨some "Friday", none, 4⟩
  else if tok == "Sat" then ⟨some "Saturday", none, 5⟩
  else if tok == "Sun" then ⟨some "Sunday", none, 6⟩
  else ⟨none, some "UNDEFINED", 0⟩

/-- Embeds `getFirstWeekDayInMonth(selectedDate)`. -/
def getFirstWeekDayInMonth (selectedDate : JSDate) : WeekdayResult :=
  weekdaySwitch (shortWeekdayName (jsWeekday selectedDate.year selectedDate.month 1))

/-- Embeds `getDateString(day, month, year)`: DD-MM-YYYY with a "0" prepended
to single-digit day and month renderings. -/
def getDateString (day month year : Int) : String :=
  let dayS := if (toString day).length == 1 then "0" ++ toString day else toString day
  let monthS := if (toString month).length == 1 then "0" ++ toString month else toString month
  dayS ++ "-" ++ monthS ++ "-" ++ toString year

/-- The list 1, 2, ..., n built by the `for(c = 1; c <= n; c++)` loop of
`createCalendarGrid`. -/
def intRange1 (n : Int) : List Int :=
  (List.range n.toNat).map (fun (i : Nat) => (i : Int) + 1)

/-- One day cell of the calendar grid: the CSS tag ("previous" / "current" /
"next"), the displayed day number, the `dataset.date` key, and whether the
cell carries the "today" class. -/
structure GridCell where
  tag : String
  dayNumber : Int
  dateKey : String
  isSelected : Bool
deriving DecidableEq

/-- Adds the "today" class to the cell at position `n`
(`container.children[n].classList.add("today")`). -/
def markToday : List GridCell → Nat → List GridCell
  | [], _ => []
  | c :: cs, 0 => { c with isSelected := true } :: cs
  | c :: cs, Nat.succ n => c :: markToday cs n

/-- `const previousMonth = new Date(); previousMonth.setMonth(selectedDate.getMonth() - 1)`.
Note that the base value is the CURRENT clock date (`new Date()`), modelled by
the explicit `today` argument, not the selected date. -/
def previousMonthOf (today selectedDate : JSDate) : JSDate :=
  jsSetMonth today (selectedDate.month - 1)

/-- The "previous" day cells of `createCalendarGrid`: the remainder slice of
the previous month's day list (`slice(Math.max(length - index, 0))`, the
`Nat` subtraction performing the clamp), one cell per loop iteration
`i < firstDay.index`. -/
def gridLeading (today selectedDate : JSDate) : List GridCell :=
  let previousMonth := previousMonthOf today selectedDate
  let firstDay := getFirstWeekDayInMonth selectedDate
  let remainder0 := intRange1 (getDaysInMonth previousMonth)
  let remainder := remainder0.drop (remainder0.length - firstDay.index)
  (List.range firstDay.index).map (fun i =>
    { tag := "previous", dayNumber := remainder.getD i 0,
      dateKey := getDateString (remainder.getD i 0) (previousMonth.month + 1) previousMonth.year,
      isSelected := false })

/-- Modelled from the spec: the global `daysInCurrentMonth` read by
`createCalendarGrid` is not defined in any file under src/.  Spec 4.2 step 3
says the middle cells are all days 1..daysInMonth(reference) of the current
month, so the global is the day count of the reference month. -/
def daysInCurrentMonth (selectedDate : JSDate) : Int :=
  getDaysInMonth selectedDate

/-- Modelled from the spec: the global `nextMonth` read by
`createCalendarGrid` is not defined in any file under src/.  Spec 4.2 step 4
fills the trailing cells with days 1, 2, 3, ... of the next month paired with
next-month date keys, so the global denotes the calendar month immediately
after the reference month. -/
def nextMonth (selectedDate : JSDate) : JSDate :=
  ⟨(normMonth selectedDate.year (selectedDate.month + 1)).1,
   (normMonth selectedDate.year (selectedDate.month + 1)).2, 1⟩

/-- The "current" day cells: one per loop iteration `i < daysInCurrentMonth`,
day number `i + 1`, keyed to the selected month. -/
def gridMiddle (selectedDate : JSDate) : List GridCell :=
  (List.range (daysInCurrentMonth selectedDate).toNat).map (fun (i : Nat) =>
    { tag := "current", dayNumber := (i : Int) + 1,
      dateKey := getDateString ((i : Int) + 1) (selectedDate.month + 1) selectedDate.year,
      isSelected := false })

/-- The "next" day cells: `daysRemaining` cells with day numbers `i + 1`,
keyed to the month after the selected month.  A non-positive JS
`daysRemaining` runs the loop zero times, which the `Nat` count models. -/
def gridTrailing (selectedDate : JSDate) (daysRemaining : Nat) : List GridCell :=
  (List.range daysRemaining).map (fun (i : Nat) =>
    { tag := "next", dayNumber := (i : Int) + 1,
      dateKey := getDateString ((i : Int) + 1) ((nextMonth selectedDate).month + 1)
        (nextMonth selectedDate).year,
      isSelected := false })

/-- The container contents after the three append loops of
`createCalendarGrid` have run in source order: the prior children, then the
"previous" cells, then the "current" cells, then `gridItemAmount` minus the
children count many "next" cells (`daysRemaining`; a non-positive value runs
the loop zero times, which the `Nat` subtraction models). -/
def gridAllCells (today selectedDate : JSDate) (container : List GridCell)
    (gridItemAmount : Nat) : List GridCell :=
  let afterCurrent := container ++ gridLeading today selectedDate ++ gridMiddle selectedDate
  afterCurrent ++ gridTrailing selectedDate (gridItemAmount - afterCurrent.length)

/-- The child position that receives the "today" class:
`selectedDate.getDate() + firstDay.index - 1`. -/
def gridSelIdx (selectedDate : JSDate) : Int :=
  selectedDate.day + ((getFirstWeekDayInMonth selectedDate).index : Int) - 1

/-- Embeds `createCalendarGrid(selectedDate, container, gridItemAmount)`.
The DOM container is the list of cells; the three append loops run in source
order; finally the cell at `selectedDate.getDate() + firstDay.index - 1` gets
the "today" class.  Indexing a child that does not exist would throw in JS,
modelled by `none`. -/
def createCalendarGrid (today selectedDate : JSDate) (container : List GridCell)
    (gridItemAmount : Nat) : Option (List GridCell) :=
  let allCells := gridAllCells today selectedDate container gridItemAmount
  let selIdx := gridSelIdx selectedDate
  if 0 ≤ selIdx ∧ selIdx.toNat < allCells.length then
    some (markToday allCells selIdx.toNat)
  else none

/-- The caller-side capacity rule of `initCalendar`: 42 grid items when the
first weekday index of the selected month is 5 or more, otherwise 35. -/
def initCalendarGridItems (selectedDate : JSDate) : Nat :=
  if 5 ≤ (getFirstWeekDayInMonth selectedDate).index then 42 else 35

/-- A calendar date is valid when its month is in 0..11 and its day is in
1..monthLength. -/
def JSDate.Valid (d : JSDate) : Prop :=
  0 ≤ d.month ∧ d.month ≤ 11 ∧ 1 ≤ d.day ∧ d.day ≤ monthLength d.year d.month

instance (d : JSDate) : Decidable d.Valid := by
  unfold JSDate.Valid
  infer_instance

/-
  Event and day model (classes.js and the CalendarDay class).
-/

structure CalendarEvent where
  id : Int
  name : String
  description : String
  date : String
  startTime : String
  endTime : String
  type : String
  difficulty : Int
  finished : Bool
deriving DecidableEq

/-- Embeds `CalendarEvent.updateEventInfo(eventData)`: copies the listed
fields from the payload onto the event (the source assigns `name`,
`description`, `date`, `startTime`, `endTime`, `type` and `finished`; it
assigns neither `id` nor `difficulty`). -/
def updateEventInfo (e : CalendarEvent) (eventData : CalendarEvent) : CalendarEvent :=
  { e with
    name := eventData.name
    description := eventData.description
    date := eventData.date
    startTime := eventData.startTime
    endTime := eventData.endTime
    type := eventData.type
    finished := eventData.finished }

/-- Return object of `CalendarDay.calculateSummary`. -/
structure DaySummary where
  earnedXP : Nat
  totalXP : Nat
  finishedTasks : Nat
  totalTasks : Nat
  totalEvents : Nat
deriving DecidableEq

/-- One iteration of the `calculateSummary` loop: the event / reminder guard
clauses, then the difficulty switch (each arm sets `XP` and adds it to
`totalXP`; the default arm leaves `XP = 0` and does not touch `totalXP`),
then the `finished === true` check. -/
def summaryStep (s : DaySummary) (obj : CalendarEvent) : DaySummary :=
  if obj.type == "event" then { s with totalEvents := s.totalEvents + 1 }
  else if obj.type == "reminder" then s
  else
    let s1 := if obj.type == "task" then { s with totalTasks := s.totalTasks + 1 } else s
    let p : Nat × DaySummary :=
      if obj.difficulty == 1 then (150, { s1 with totalXP := s1.totalXP + 150 })
      else if obj.difficulty == 2 then (400, { s1 with totalXP := s1.totalXP + 400 })
      else if obj.difficulty == 3 then (750, { s1 with totalXP := s1.totalXP + 750 })
      else (0, s1)
    if obj.finished then
      { p.2 with earnedXP := p.2.earnedXP + p.1, finishedTasks := p.2.finishedTasks + 1 }
    else p.2

/-- Embeds `CalendarDay.calculateSummary` on a given event view: all five
counters start at 0 and the loop folds over the view in order. -/
def calculateSummary (eventList : List CalendarEvent) : DaySummary :=
  eventList.foldl summaryStep ⟨0, 0, 0, 0, 0⟩

/-- The fixed XP table of the difficulty switch: 1 → 150, 2 → 400, 3 → 750,
anything else → 0. -/
def xpFor (d : Int) : Nat :=
  if d == 1 then 150 else if d == 2 then 400 else if d == 3 then 750 else 0

/-- The amount one event adds to `earnedXP` during `calculateSummary`. -/
def earnedInc (e : CalendarEvent) : Nat :=
  if e.type == "event" || e.type == "reminder" then 0
  else if e.finished then xpFor e.difficulty else 0

/-- The amount one event adds to `totalXP` during `calculateSummary`. -/
def totalInc (e : CalendarEvent) : Nat :=
  if e.type == "event" || e.type == "reminder" then 0 else xpFor e.difficulty

/-- Stated from the spec for the refinement claim on `calculateSummary`: the
per-event rule exactly as the specification words it (type `event` counts an
event and contributes no XP; `reminder` contributes to nothing; `task` counts
a task, adds the difficulty-table XP to `totalXP` and, when finished, adds it
to `earnedXP` and counts a finished task; no other type is specified). -/
def specSummaryStep (s : DaySummary) (e : CalendarEvent) : DaySummary :=
  if e.type == "event" then { s with totalEvents := s.totalEvents + 1 }
  else if e.type == "reminder" then s
  else if e.type == "task" then
    let xp := xpFor e.difficulty
    let s1 := { s with totalTasks := s.totalTasks + 1, totalXP := s.totalXP + xp }
    if e.finished then
      { s1 with earnedXP := s1.earnedXP + xp, finishedTasks := s1.finishedTasks + 1 }
    else s1
  else s

/-- Stated from the spec: the whole summary as a single fold of the rules of
`specSummaryStep` over the event view. -/
def specSummarize (l : List CalendarEvent) : DaySummary :=
  l.foldl specSummaryStep ⟨0, 0, 0, 0, 0⟩

/-
  Day model: refreshEventList filter and sort.
-/

/-- Value of a run of decimal digit characters. -/
def digitsToNat (cs : List Char) : Nat :=
  cs.foldl (fun a c => a * 10 + (c.toNat - 48)) 0

/-- Leading digit run of a character list, `none` when there is none. -/
def parseDigits (cs : List Char) : Option Nat :=
  let ds := cs.takeWhile (fun c => c.isDigit)
  if ds.isEmpty then none else some (digitsToNat ds)

/-- Embeds `parseInt(s)` on the short strings the sort comparator feeds it:
optional leading whitespace, an optional sign, then a leading run of decimal
digits; `none` models the `NaN` result when no digits are found. -/
def jsParseInt (s : String) : Option Int :=
  match s.toList.dropWhile (fun c => c.isWhitespace) with
  | '-' :: rest => (parseDigits rest).map (fun n => -(n : Int))
  | '+' :: rest => (parseDigits rest).map (fun n => (n : Int))
  | rest => (parseDigits rest).map (fun n => (n : Int))

/-- `parseInt(e.startTime.slice(0, 2))`: the hour key the comparator sorts by. -/
def startHour (e : CalendarEvent) : Option Int :=
  jsParseInt (e.startTime.take 2)

/-- The parsed hour with the irrelevant default 0 for `NaN` keys; only used
to state ordering properties of event views whose hours all parse. -/
def hourVal (e : CalendarEvent) : Int :=
  (startHour e).getD 0

/-- The sort comparator of `refreshEventList`: -1 / 1 / 0 by comparing the
parsed hours.  Any comparison against a `NaN` hour yields 0, because both
`<` and `>` are false on `NaN` in JS. -/
def eventCompare (a b : CalendarEvent) : Int :=
  match startHour a, startHour b with
  | some x, some y => if x < y then -1 else if y < x then 1 else 0
  | _, _ => 0

/-- "`a` may stay before `b`": the comparator does not order `a` after `b`.
A JS stable sort keeps `a` before `b` exactly when this holds or both were
already in that order with comparator value 0. -/
def jsSortLE (a b : CalendarEvent) : Bool :=
  eventCompare a b ≤ 0

/-- Stable insertion of `x` into `l`: `x` passes elements the comparator
orders strictly before it and stops at the first element it need not follow,
so equal elements keep their original relative order. -/
def sortedInsert (x : CalendarEvent) : List CalendarEvent → List CalendarEvent
  | [] => [x]
  | y :: ys => if jsSortLE x y then x :: y :: ys else y :: sortedInsert x ys

/-- The JS `Array.prototype.sort` applied by `refreshEventList`, which the
language specification requires to be stable, realized as stable insertion
sort with the embedded comparator. -/
def jsStableSort : List CalendarEvent → List CalendarEvent
  | [] => []
  | x :: xs => sortedInsert x (jsStableSort xs)

structure CalendarDay where
  date : String
  eventList : List CalendarEvent
deriving DecidableEq

/-- Embeds `CalendarDay.refreshEventList`.  The global event list is the
explicit state argument: `filter` allocates the fresh `matchingEvents` array,
`sort` reorders only that fresh array in place, and the day's event view is
replaced by the result; the global list itself is returned unchanged. -/
def refreshEventList (day : CalendarDay) (globalEventList : List CalendarEvent) :
    CalendarDay × List CalendarEvent :=
  let matchingEvents := globalEventList.filter (fun obj => obj.date.trim == day.date.trim)
  let sortedEvents := jsStableSort matchingEvents
  ({ day with eventList := sortedEvents }, globalEventList)

/-
  Concrete fixtures used by witnesses and counterexamples.
-/

/-- A finished difficulty-2 task. -/
def taskDone2 : CalendarEvent :=
  ⟨1, "task one", "", "01-01-2024", "09:00", "10:00", "task", 2, true⟩

/-- An unfinished difficulty-3 task. -/
def taskTodo3 : CalendarEvent :=
  ⟨2, "task two", "", "01-01-2024", "10:00", "11:00", "task", 3, false⟩

/-- An event with a malformed type and a malformed difficulty. -/
def malformedEvent : CalendarEvent :=
  ⟨3, "weird", "", "01-01-2024", "12:00", "13:00", "xyz", 7, true⟩

/-- An afternoon event used by the ordering witness. -/
def eventAt14 : CalendarEvent :=
  ⟨4, "afternoon", "", "01-01-2024", "14:30", "15:00", "event", 0, false⟩

/-- A morning event used by the ordering witness. -/
def eventAt09 : CalendarEvent :=
  ⟨5, "morning", "", "01-01-2024", "09:00", "09:30", "event", 0, false⟩

/-- An event on another date, filtered out by the ordering witness. -/
def eventOtherDay : CalendarEvent :=
  ⟨6, "elsewhere", "", "02-01-2024", "08:00", "08:30", "event", 0, false⟩

/-- The day fixture for the refresh witness. -/
def day0101 : CalendarDay := ⟨"01-01-2024", []⟩

/-- A payload whose every field differs from `taskDone2`. -/
def updatePayload : CalendarEvent :=
  ⟨99, "new name", "new description", "05-03-2024", "11:00", "12:00", "reminder", 1, false⟩

/-- 15 March 2024, a valid reference date (month 2 is 0-based March). -/
def march15 : JSDate := ⟨2024, 2, 15⟩

/-- 31 March 2024: a clock date on which the previous-month computation of
`createCalendarGrid` rolls over, since February has fewer than 31 days. -/
def march31 : JSDate := ⟨2024, 2, 31⟩

/-- 1 June 2024: June 2024 starts on a Saturday (first-weekday index 5). -/
def june1 : JSDate := ⟨2024, 5, 1⟩

/-
  Helper lemmas about the summary fold.
-/

theorem summaryStep_earnedXP (s : DaySummary) (obj : CalendarEvent) :
    (summaryStep s obj).earnedXP = s.earnedXP + earnedInc obj := by
  simp only [summaryStep, earnedInc, xpFor]
  split_ifs <;> simp_all

theorem summaryStep_totalXP (s : DaySummary) (obj : CalendarEvent) :
    (summaryStep s obj).totalXP = s.totalXP + totalInc obj := by
  simp only [summaryStep, totalInc, xpFor]
  split_ifs <;> simp_all

theorem foldl_summaryStep_earnedXP (l : List CalendarEvent) (s : DaySummary) :
    (l.foldl summaryStep s).earnedXP = s.earnedXP + (l.map earnedInc).sum := by
  induction l generalizing s with
  | nil => simp
  | cons x xs ih => simp [ih, summaryStep_earnedXP, Nat.add_assoc]

theorem foldl_summaryStep_totalXP (l : List CalendarEvent) (s : DaySummary) :
    (l.foldl summaryStep s).totalXP = s.totalXP + (l.map totalInc).sum := by
  induction l generalizing s with
  | nil => simp
  | cons x xs ih => simp [ih, summaryStep_totalXP, Nat.add_assoc]

theorem earnedInc_le_totalInc (e : CalendarEvent) : earnedInc e ≤ totalInc e := by
  unfold earnedInc totalInc
  split_ifs <;> simp

theorem summaryStep_eq_spec (s : DaySummary) (e : CalendarEvent)
    (h : e.type = "event" ∨ e.type = "reminder" ∨ e.type = "task") :
    summaryStep s e = specSummaryStep s e := by
  rcases h with h | h | h <;>
    simp only [summaryStep, specSummaryStep, xpFor, h] <;> split_ifs <;> simp_all

theorem foldl_summaryStep_eq_spec (l : List CalendarEvent) (s : DaySummary)
    (h : ∀ e ∈ l, e.type = "event" ∨ e.type = "reminder" ∨ e.type = "task") :
    l.foldl summaryStep s = l.foldl specSummaryStep s := by
  induction l generalizing s with
  | nil => rfl
  | cons x xs ih =>
    simp only [List.foldl_cons]
    rw [summaryStep_eq_spec s x (h x (by simp))]
    exact ih _ (fun e he => h e (by simp [he]))

/-
  Claim theorems.
-/

/-- C1 (code bug evaluation).  On the clock date 31 March 2024 with reference
date 31 March 2024, the "previous" cells of the grid are the days 28..31 of
MARCH 2024 (keys DD-03-2024), not the last 4 days 26..29 of February 2024:
`new Date()` with `setMonth` rolls 31 February over into 2 March, so the
leading cells are computed from the wrong month. -/
theorem c1_buggy_previous_cells :
    ((createCalendarGrid march31 march31 [] 35).map (fun g =>
        (g.take 4).map (fun c => (c.tag, c.dayNumber, c.dateKey))) =
      some [("previous", 28, "28-03-2024"), ("previous", 29, "29-03-2024"),
            ("previous", 30, "30-03-2024"), ("previous", 31, "31-03-2024")]) ∧
    ((createCalendarGrid march31 march31 [] 35).map (fun g =>
        (g.take 4).map (fun c => c.dateKey)) ≠
      some ["26-02-2024", "27-02-2024", "28-02-2024", "29-02-2024"]) := by
  constructor
  · rfl
  · decide

/-- C2 counterexample: `updateEventInfo` does not replace `difficulty` with
the payload's `difficulty`, refuting the claim that every field except `id`
is replaced. -/
theorem c2_counterexample :
    (updateEventInfo taskDone2 updatePayload).difficulty ≠ updatePayload.difficulty := by
  decide

/-- C2 (amended): `updateEventInfo` replaces `name`, `description`, `date`,
`startTime`, `endTime`, `type` and `finished` with the payload's fields and
leaves both `id` and `difficulty` unchanged. -/
theorem c2_update_fields (e d : CalendarEvent) :
    (updateEventInfo e d).id = e.id ∧ (updateEventInfo e d).difficulty = e.difficulty ∧
    (updateEventInfo e d).name = d.name ∧ (updateEventInfo e d).description = d.description ∧
    (updateEventInfo e d).date = d.date ∧ (updateEventInfo e d).startTime = d.startTime ∧
    (updateEventInfo e d).endTime = d.endTime ∧ (updateEventInfo e d).type = d.type ∧
    (updateEventInfo e d).finished = d.finished :=
  ⟨rfl, rfl, rfl, rfl, rfl, rfl, rfl, rfl, rfl⟩

/-- C3: on any event view whose types are all among "event", "reminder" and
"task", `calculateSummary` equals the single fold of the fixed per-type rules
of the specification; in particular one finished difficulty-2 task and one
unfinished difficulty-3 task yield earnedXP 400, totalXP 1150,
finishedTasks 1, totalTasks 2, totalEvents 0. -/
theorem c3_summary_rules (l : List CalendarEvent)
    (h : l.all (fun e => e.type == "event" || e.type == "reminder" || e.type == "task") = true) :
    calculateSummary l = specSummarize l ∧
    calculateSummary [taskDone2, taskTodo3] = ⟨400, 1150, 1, 2, 0⟩ := by
  constructor
  · unfold calculateSummary specSummarize
    refine foldl_summaryStep_eq_spec l _ (fun e he => ?_)
    have := List.all_eq_true.mp h e he
    simpa [or_assoc] using this
  · decide

/-- C3 witness: the general rule applied to the two-task fixture. -/
theorem c3_summary_rules_witness :
    ([taskDone2, taskTodo3].all
        (fun e => e.type == "event" || e.type == "reminder" || e.type == "task") = true) ∧
    (calculateSummary [taskDone2, taskTodo3] = specSummarize [taskDone2, taskTodo3] ∧
      calculateSummary [taskDone2, taskTodo3] = ⟨400, 1150, 1, 2, 0⟩) :=
  ⟨by decide, c3_summary_rules [taskDone2, taskTodo3] (by decide)⟩

/-- C4: an event whose type is none of "task", "event", "reminder" and whose
difficulty is none of 1, 2, 3 contributes nothing to `earnedXP` or `totalXP`
of `calculateSummary`, wherever it sits in the event view. -/
theorem c4_malformed_zero_xp (l1 l2 : List CalendarEvent) (e : CalendarEvent)
    (ht : e.type ≠ "event" ∧ e.type ≠ "reminder" ∧ e.type ≠ "task")
    (hd : e.difficulty ≠ 1 ∧ e.difficulty ≠ 2 ∧ e.difficulty ≠ 3) :
    (calculateSummary (l1 ++ e :: l2)).earnedXP = (calculateSummary (l1 ++ l2)).earnedXP ∧
    (calculateSummary (l1 ++ e :: l2)).totalXP = (calculateSummary (l1 ++ l2)).totalXP := by
  have he : earnedInc e = 0 := by
    unfold earnedInc xpFor
    simp [ht.1, ht.2.1, ht.2.2, hd.1, hd.2.1, hd.2.2]
  have hto : totalInc e = 0 := by
    unfold totalInc xpFor
    simp [ht.1, ht.2.1, ht.2.2, hd.1, hd.2.1, hd.2.2]
  unfold calculateSummary
  rw [foldl_summaryStep_earnedXP, foldl_summaryStep_earnedXP,
    foldl_summaryStep_totalXP, foldl_summaryStep_totalXP]
  simp [he, hto]

/-- C4 witness: the malformed fixture inserted between the two task fixtures. -/
theorem c4_malformed_zero_xp_witness :
    (malformedEvent.type ≠ "event" ∧ malformedEvent.type ≠ "reminder" ∧
      malformedEvent.type ≠ "task") ∧
    (malformedEvent.difficulty ≠ 1 ∧ malformedEvent.difficulty ≠ 2 ∧
      malformedEvent.difficulty ≠ 3) ∧
    ((calculateSummary ([taskDone2] ++ malformedEvent :: [taskTodo3])).earnedXP =
        (calculateSummary ([taskDone2] ++ [taskTodo3])).earnedXP ∧
      (calculateSummary ([taskDone2] ++ malformedEvent :: [taskTodo3])).totalXP =
        (calculateSummary ([taskDone2] ++ [taskTodo3])).totalXP) :=
  ⟨by decide, by decide,
    c4_malformed_zero_xp [taskDone2] [taskTodo3] malformedEvent (by decide) (by decide)⟩

/-- C8 (code bug evaluation): the default branch of the weekday switch stores
"UNDEFINED" under the misspelled property `weekDay`, so the `weekday`
property of the sentinel is undefined rather than "UNDEFINED". -/
theorem c8_sentinel_misspelled :
    weekdaySwitch "Invalid" = ⟨none, some "UNDEFINED", 0⟩ ∧
    (weekdaySwitch "Invalid").weekday = none := by
  decide

/-- C9: `refreshEventList` returns the shared event collection unchanged:
the filter allocates a fresh list and the sort reorders only that fresh
list. -/
theorem c9_refresh_frame (day : CalendarDay) (g : List CalendarEvent) :
    (refreshEventList day g).2 = g := rfl

/-- C10: every XP amount added to `earnedXP` for a finished item is also
added to `totalXP` for that item, so the summary always satisfies
earnedXP ≤ totalXP. -/
theorem c10_earned_le_total (l : List CalendarEvent) :
    (calculateSummary l).earnedXP ≤ (calculateSummary l).totalXP := by
  unfold calculateSummary
  rw [foldl_summaryStep_earnedXP, foldl_summaryStep_totalXP]
  simpa using List.sum_le_sum (fun e _ => earnedInc_le_totalInc e)

/-
  Helper lemmas about the comparator and the stable sort.
-/

theorem jsSortLE_true_iff (a b : CalendarEvent) (ha : (startHour a).isSome = true)
    (hb : (startHour b).isSome = true) :
    jsSortLE a b = true ↔ hourVal a ≤ hourVal b := by
  obtain ⟨x, hx⟩ := Option.isSome_iff_exists.mp ha
  obtain ⟨y, hy⟩ := Option.isSome_iff_exists.mp hb
  simp only [jsSortLE, eventCompare, hourVal, hx, hy, Option.getD_some, decide_eq_true_eq]
  split_ifs <;> omega

theorem jsSortLE_false_iff (a b : CalendarEvent) (ha : (startHour a).isSome = true)
    (hb : (startHour b).isSome = true) :
    jsSortLE a b = false ↔ hourVal b < hourVal a := by
  rw [← Bool.not_eq_true, jsSortLE_true_iff a b ha hb, Int.not_le]

theorem sortedInsert_perm (x : CalendarEvent) (l : List CalendarEvent) :
    List.Perm (sortedInsert x l) (x :: l) := by
  induction l with
  | nil => exact List.Perm.refl _
  | cons y ys ih =>
    unfold sortedInsert
    split
    · exact List.Perm.refl _
    · exact (ih.cons y).trans (List.Perm.swap x y ys)

theorem jsStableSort_perm (l : List CalendarEvent) : List.Perm (jsStableSort l) l := by
  induction l with
  | nil => exact List.Perm.refl _
  | cons x xs ih =>
    exact (sortedInsert_perm x (jsStableSort xs)).trans (ih.cons x)

theorem sortedInsert_pairwise (x : CalendarEvent) (l : List CalendarEvent)
    (hx : (startHour x).isSome = true) (hl : ∀ e ∈ l, (startHour e).isSome = true)
    (hp : l.Pairwise (fun a b => hourVal a ≤ hourVal b)) :
    (sortedInsert x l).Pairwise (fun a b => hourVal a ≤ hourVal b) := by
  induction l with
  | nil => simp [sortedInsert]
  | cons y ys ih =>
    have hy : (startHour y).isSome = true := hl y (by simp)
    have hys : ∀ e ∈ ys, (startHour e).isSome = true := fun e he => hl e (by simp [he])
    rcases List.pairwise_cons.mp hp with ⟨hyall, hpys⟩
    unfold sortedInsert
    split
    · rename_i hle
      have hxy : hourVal x ≤ hourVal y := (jsSortLE_true_iff x y hx hy).mp hle
      refine List.pairwise_cons.mpr ⟨?_, hp⟩
      intro z hz
      rcases List.mem_cons.mp hz with rfl | hz'
      · exact hxy
      · exact le_trans hxy (hyall z hz')
    · rename_i hnle
      have hf : jsSortLE x y = false := by
        cases hb : jsSortLE x y <;> simp_all
      have hyx : hourVal y ≤ hourVal x :=
        le_of_lt ((jsSortLE_false_iff x y hx hy).mp hf)
      refine List.pairwise_cons.mpr ⟨?_, ih hys hpys⟩
      intro z hz
      have hz' := (sortedInsert_perm x ys).mem_iff.mp hz
      rcases List.mem_cons.mp hz' with rfl | hz''
      · exact hyx
      · exact hyall z hz''

theorem jsStableSort_pairwise (l : List CalendarEvent)
    (hl : ∀ e ∈ l, (startHour e).isSome = true) :
    (jsStableSort l).Pairwise (fun a b => hourVal a ≤ hourVal b) := by
  induction l with
  | nil => simp [jsStableSort]
  | cons x xs ih =>
    have hx : (startHour x).isSome = true := hl x (by simp)
    have hxs : ∀ e ∈ xs, (startHour e).isSome = true := fun e he => hl e (by simp [he])
    have hsorted : ∀ e ∈ jsStableSort xs, (startHour e).isSome = true :=
      fun e he => hxs e ((jsStableSort_perm xs).mem_iff.mp he)
    exact sortedInsert_pairwise x (jsStableSort xs) hx hsorted (ih hxs)

theorem sortedInsert_filter_hour (x : CalendarEvent) (l : List CalendarEvent) (hq : Int)
    (hx : (startHour x).isSome = true) (hl : ∀ e ∈ l, (startHour e).isSome = true) :
    (sortedInsert x l).filter (fun e => hourVal e == hq) =
      (x :: l).filter (fun e => hourVal e == hq) := by
  induction l with
  | nil => rfl
  | cons y ys ih =>
    have hy : (startHour y).isSome = true := hl y (by simp)
    have hys : ∀ e ∈ ys, (startHour e).isSome = true := fun e he => hl e (by simp [he])
    unfold sortedInsert
    split
    · rfl
    · rename_i hnle
      have hf : jsSortLE x y = false := by
        cases hb : jsSortLE x y <;> simp_all
      have hyx : hourVal y < hourVal x := (jsSortLE_false_iff x y hx hy).mp hf
      by_cases hxq : hourVal x = hq <;> by_cases hyq : hourVal y = hq
      · omega
      · simp only [List.filter_cons, ih hys]
        simp [hxq, hyq]
      · simp only [List.filter_cons, ih hys]
        simp [hxq, hyq]
      · simp only [List.filter_cons, ih hys]
        simp [hxq, hyq]

theorem jsStableSort_filter_hour (l : List CalendarEvent) (hq : Int)
    (hl : ∀ e ∈ l, (startHour e).isSome = true) :
    (jsStableSort l).filter (fun e => hourVal e == hq) =
      l.filter (fun e => hourVal e == hq) := by
  induction l with
  | nil => rfl
  | cons x xs ih =>
    have hx : (startHour x).isSome = true := hl x (by simp)
    have hxs : ∀ e ∈ xs, (startHour e).isSome = true := fun e he => hl e (by simp [he])
    have hsorted : ∀ e ∈ jsStableSort xs, (startHour e).isSome = true :=
      fun e he => hxs e ((jsStableSort_perm xs).mem_iff.mp he)
    show (sortedInsert x (jsStableSort xs)).filter _ = _
    rw [sortedInsert_filter_hour x (jsStableSort xs) hq hx hsorted]
    simp only [List.filter_cons, ih hxs]

/-- C5: `refreshEventList` replaces the day's event view with exactly the
events of the collection whose trimmed date key equals the day's trimmed key
(a permutation of that filter), sorted ascending by the hour parsed from the
first two characters of `startTime`; and the sort is stable: for every hour
value, the events carrying that hour appear in exactly their original
relative order from the collection.  Stated for collections whose start
hours all parse. -/
theorem c5_refresh_filter_sort (day : CalendarDay) (g : List CalendarEvent)
    (h : g.all (fun e => (startHour e).isSome) = true) :
    List.Perm (refreshEventList day g).1.eventList
      (g.filter (fun obj => obj.date.trim == day.date.trim)) ∧
    (refreshEventList day g).1.eventList.Pairwise (fun a b => hourVal a ≤ hourVal b) ∧
    ∀ hq : Int,
      (refreshEventList day g).1.eventList.filter (fun e => hourVal e == hq) =
        (g.filter (fun obj => obj.date.trim == day.date.trim)).filter
          (fun e => hourVal e == hq) := by
  have hall : ∀ e ∈ g, (startHour e).isSome = true := fun e he => by
    simpa using List.all_eq_true.mp h e he
  have hm : ∀ e ∈ g.filter (fun obj => obj.date.trim == day.date.trim),
      (startHour e).isSome = true :=
    fun e he => hall e (List.mem_of_mem_filter he)
  exact ⟨jsStableSort_perm _, jsStableSort_pairwise _ hm,
    fun hq => jsStableSort_filter_hour _ hq hm⟩

/-- C5 witness: a "14:30" and a "09:00" event supplied in that order, plus an
event on another date; after refresh the hour-9 slice of the view equals the
hour-9 slice of the filtered collection. -/
theorem c5_refresh_filter_sort_witness :
    ([eventAt14, eventAt09, eventOtherDay].all (fun e => (startHour e).isSome) = true) ∧
    (refreshEventList day0101 [eventAt14, eventAt09, eventOtherDay]).1.eventList.filter
        (fun e => hourVal e == 9) =
      ([eventAt14, eventAt09, eventOtherDay].filter
          (fun obj => obj.date.trim == day0101.date.trim)).filter
        (fun e => hourVal e == 9) :=
  ⟨by decide,
    (c5_refresh_filter_sort day0101 [eventAt14, eventAt09, eventOtherDay] (by decide)).2.2 9⟩

/-
  Helper lemmas about the grid builder.
-/

theorem weekdaySwitch_index_le (tok : String) : (weekdaySwitch tok).index ≤ 6 := by
  unfold weekdaySwitch
  split_ifs <;> simp

theorem monthLength_ge (y m : Int) : 28 ≤ monthLength y m := by
  unfold monthLength
  split_ifs <;> omega

theorem monthLength_le (y m : Int) : monthLength y m ≤ 31 := by
  unfold monthLength
  split_ifs <;> omega

theorem gridLeading_length (t s : JSDate) :
    (gridLeading t s).length = (getFirstWeekDayInMonth s).index := by
  simp [gridLeading]

theorem gridMiddle_length (s : JSDate) :
    (gridMiddle s).length = (daysInCurrentMonth s).toNat := by
  simp [gridMiddle]

theorem gridTrailing_length (s : JSDate) (n : Nat) : (gridTrailing s n).length = n := by
  simp [gridTrailing]

theorem gridLeading_not_selected (t s : JSDate) :
    ∀ c ∈ gridLeading t s, c.isSelected = false := by
  intro c hc
  simp only [gridLeading, List.mem_map] at hc
  obtain ⟨i, _, rfl⟩ := hc
  rfl

theorem gridMiddle_not_selected (s : JSDate) :
    ∀ c ∈ gridMiddle s, c.isSelected = false := by
  intro c hc
  simp only [gridMiddle, List.mem_map] at hc
  obtain ⟨i, _, rfl⟩ := hc
  rfl

theorem gridTrailing_not_selected (s : JSDate) (n : Nat) :
    ∀ c ∈ gridTrailing s n, c.isSelected = false := by
  intro c hc
  simp only [gridTrailing, List.mem_map] at hc
  obtain ⟨i, _, rfl⟩ := hc
  rfl

theorem gridMiddle_getElem (s : JSDate) (k : Nat) (hk : k < (daysInCurrentMonth s).toNat) :
    (gridMiddle s)[k]? = some
      { tag := "current", dayNumber := (k : Int) + 1,
        dateKey := getDateString ((k : Int) + 1) (s.month + 1) s.year,
        isSelected := false } := by
  simp [gridMiddle, hk]

theorem markToday_length (l : List GridCell) (n : Nat) :
    (markToday l n).length = l.length := by
  induction l generalizing n with
  | nil => rfl
  | cons c cs ih =>
    cases n with
    | zero => rfl
    | succ m => simp [markToday, ih]

theorem markToday_getElem (l : List GridCell) (n : Nat) :
    (markToday l n)[n]? = l[n]?.map (fun c => { c with isSelected := true }) := by
  induction l generalizing n with
  | nil => simp [markToday]
  | cons c cs ih =>
    cases n with
    | zero => simp [markToday]
    | succ m => simpa [markToday] using ih m

theorem markToday_countP (l : List GridCell) (n : Nat) (hn : n < l.length)
    (hall : ∀ c ∈ l, c.isSelected = false) :
    (markToday l n).countP (fun c => c.isSelected) = 1 := by
  induction l generalizing n with
  | nil => simp at hn
  | cons c cs ih =>
    cases n with
    | zero =>
      have h0 : cs.countP (fun c => c.isSelected) = 0 :=
        List.countP_eq_zero.mpr (fun a ha => by simp [hall a (by simp [ha])])
      simp [markToday, List.countP_cons, h0]
    | succ m =>
      have hc : c.isSelected = false := hall c (by simp)
      have hrest : (markToday cs m).countP (fun c => c.isSelected) = 1 :=
        ih m (by simpa using hn) (fun a ha => hall a (by simp [ha]))
      simp [markToday, List.countP_cons, hc, hrest]

theorem gridAllCells_empty_length (today selectedDate : JSDate) (cap : Nat)
    (hcap : (getFirstWeekDayInMonth selectedDate).index +
      (daysInCurrentMonth selectedDate).toNat ≤ cap) :
    (gridAllCells today selectedDate [] cap).length = cap := by
  simp only [gridAllCells, List.length_append, gridLeading_length, gridMiddle_length,
    gridTrailing_length, List.nil_append, List.length_nil]
  omega

theorem gridAllCells_not_selected (today selectedDate : JSDate) (cap : Nat) :
    ∀ c ∈ gridAllCells today selectedDate [] cap, c.isSelected = false := by
  intro c hc
  simp only [gridAllCells, List.nil_append, List.mem_append] at hc
  rcases hc with (hc | hc) | hc
  · exact gridLeading_not_selected _ _ c hc
  · exact gridMiddle_not_selected _ c hc
  · exact gridTrailing_not_selected _ _ c hc

/-- C7: with an initially empty container and the capacity chosen by the
caller-side rule of `initCalendar` (42 cells when the selected month's
first-weekday index is at least 5, otherwise 35), the grid builder output
has length exactly the requested capacity. -/
theorem c7_grid_length (today selectedDate : JSDate) (h : selectedDate.Valid) :
    ∃ g, createCalendarGrid today selectedDate [] (initCalendarGridItems selectedDate) =
        some g ∧
      g.length = initCalendarGridItems selectedDate := by
  obtain ⟨hm0, hm1, hd1, hd2⟩ := h
  have hd2' : selectedDate.day ≤ daysInCurrentMonth selectedDate := hd2
  have hidx : (getFirstWeekDayInMonth selectedDate).index ≤ 6 := weekdaySwitch_index_le _
  have hL31 : daysInCurrentMonth selectedDate ≤ 31 := monthLength_le _ _
  have hcap : (getFirstWeekDayInMonth selectedDate).index +
      (daysInCurrentMonth selectedDate).toNat ≤ initCalendarGridItems selectedDate := by
    unfold initCalendarGridItems
    split_ifs with h5 <;> omega
  have hlen : (gridAllCells today selectedDate [] (initCalendarGridItems selectedDate)).length =
      initCalendarGridItems selectedDate :=
    gridAllCells_empty_length _ _ _ hcap
  have hsel0 : 0 ≤ gridSelIdx selectedDate := by
    unfold gridSelIdx
    omega
  have hselL : (gridSelIdx selectedDate).toNat <
      (gridAllCells today selectedDate [] (initCalendarGridItems selectedDate)).length := by
    rw [hlen]
    unfold gridSelIdx
    omega
  refine ⟨markToday (gridAllCells today selectedDate [] (initCalendarGridItems selectedDate))
      (gridSelIdx selectedDate).toNat, ?_, ?_⟩
  · simp only [createCalendarGrid]
    rw [if_pos ⟨hsel0, hselL⟩]
  · rw [markToday_length, hlen]

/-- C7 witness: the rule applied to the reference date 15 March 2024. -/
theorem c7_grid_length_witness :
    JSDate.Valid march15 ∧
    ∃ g, createCalendarGrid march15 march15 [] (initCalendarGridItems march15) = some g ∧
      g.length = initCalendarGridItems march15 :=
  ⟨by decide, c7_grid_length march15 march15 (by decide)⟩

/-- C6: building into an initially empty container, the grid builder marks
exactly one cell as selected ("today"), namely the cell at position
(referenceDay - 1) + firstWeekday.index, and that cell's date key equals the
reference date's own date key. -/
theorem c6_selected_cell (today selectedDate : JSDate) (cap : Nat) (h : selectedDate.Valid) :
    ∃ g, createCalendarGrid today selectedDate [] cap = some g ∧
      g.countP (fun c => c.isSelected) = 1 ∧
      ∃ c, g[(selectedDate.day - 1).toNat + (getFirstWeekDayInMonth selectedDate).index]? =
          some c ∧
        c.isSelected = true ∧
        c.dateKey = getDateString selectedDate.day (selectedDate.month + 1) selectedDate.year := by
  obtain ⟨hm0, hm1, hd1, hd2⟩ := h
  have hd2' : selectedDate.day ≤ daysInCurrentMonth selectedDate := hd2
  have hlen_ge : (getFirstWeekDayInMonth selectedDate).index +
      (daysInCurrentMonth selectedDate).toNat ≤
      (gridAllCells today selectedDate [] cap).length := by
    simp only [gridAllCells, List.nil_append, List.length_append, gridLeading_length,
      gridMiddle_length, gridTrailing_length]
    omega
  have hp_eq : (gridSelIdx selectedDate).toNat =
      (selectedDate.day - 1).toNat + (getFirstWeekDayInMonth selectedDate).index := by
    unfold gridSelIdx
    omega
  have hplt : (selectedDate.day - 1).toNat + (getFirstWeekDayInMonth selectedDate).index <
      (gridAllCells today selectedDate [] cap).length := by omega
  have hsel0 : 0 ≤ gridSelIdx selectedDate := by
    unfold gridSelIdx
    omega
  have hmid : (gridAllCells today selectedDate [] cap)[(selectedDate.day - 1).toNat +
        (getFirstWeekDayInMonth selectedDate).index]? =
      some
        { tag := "current", dayNumber := ((selectedDate.day - 1).toNat : Int) + 1,
          dateKey := getDateString (((selectedDate.day - 1).toNat : Int) + 1)
            (selectedDate.month + 1) selectedDate.year,
          isSelected := false } := by
    have hkm : (selectedDate.day - 1).toNat < (daysInCurrentMonth selectedDate).toNat := by
      omega
    simp only [gridAllCells, List.nil_append]
    rw [List.getElem?_append,
      if_pos (by rw [List.length_append, gridLeading_length, gridMiddle_length]; omega)]
    rw [List.getElem?_append, if_neg (by rw [gridLeading_length]; omega)]
    rw [gridLeading_length, Nat.add_sub_cancel]
    exact gridMiddle_getElem _ _ hkm
  refine ⟨markToday (gridAllCells today selectedDate [] cap) (gridSelIdx selectedDate).toNat,
    ?_, ?_, ?_⟩
  · simp only [createCalendarGrid]
    rw [if_pos ⟨hsel0, by rw [hp_eq]; exact hplt⟩]
  · exact markToday_countP _ _ (by rw [hp_eq]; exact hplt) (gridAllCells_not_selected _ _ _)
  · rw [hp_eq]
    have hmarked : (markToday (gridAllCells today selectedDate [] cap)
        ((selectedDate.day - 1).toNat + (getFirstWeekDayInMonth selectedDate).index))[
        (selectedDate.day - 1).toNat + (getFirstWeekDayInMonth selectedDate).index]? =
        some
          { tag := "current", dayNumber := ((selectedDate.day - 1).toNat : Int) + 1,
            dateKey := getDateString (((selectedDate.day - 1).toNat : Int) + 1)
              (selectedDate.month + 1) selectedDate.year,
            isSelected := true } := by
      rw [markToday_getElem, hmid]
      rfl
    refine ⟨_, hmarked, rfl, ?_⟩
    have hcast : ((selectedDate.day - 1).toNat : Int) + 1 = selectedDate.day := by omega
    show getDateString (((selectedDate.day - 1).toNat : Int) + 1)
      (selectedDate.month + 1) selectedDate.year = _
    rw [hcast]

/-- C6 witness: the grid of 15 March 2024 at capacity 35. -/
theorem c6_selected_cell_witness :
    JSDate.Valid march15 ∧
    ∃ g, createCalendarGrid march15 march15 [] 35 = some g ∧
      g.countP (fun c => c.isSelected) = 1 ∧
      ∃ c, g[(march15.day - 1).toNat + (getFirstWeekDayInMonth march15).index]? = some c ∧
        c.isSelected = true ∧
        c.dateKey = getDateString march15.day (march15.month + 1) march15.year :=
  ⟨by decide, c6_selected_cell march15 march15 35 (by decide)⟩
